import Mathlib

/-!
# go-git-release — verification of the spec's claims against the source

Shallow embedding of the parts of `clcollins/go-git-release` that the claims
touch:

* the OAuth2 device-flow polling client (`src/cmd/release.go`:
  `getAccessToken`, `pollForAccessToken`), including its timing behaviour
  (`time.After` deadline, `time.Tick` cadence, blocking HTTP polls);
* the HTTP request builders (`newPostRequest` and its other revisions);
* `createRelease`'s request construction (both revisions);
* the tag resolver (`run` in the later revision, `getTagFromString`,
  `confirm`) and tag creation (`createTag`, `stripComments`, the editor
  prompt template);
* `parseGitURL`.

The repository files concatenate several revisions of each Go file; where two
revisions of a function differ in a way a claim depends on, both are embedded
(suffix `V2`/`V3` for the later-listed copies, in file order).

Time is modelled in nanoseconds (`Nat`), matching Go's `time.Duration`.
-/

namespace GoGitRelease

/-- One second in nanoseconds (`time.Second`). -/
def second : Nat := 1000000000

/-- The ticker period from `release.go:275` / `release.go:1009`:
`time.Tick(time.Duration(interval)*time.Second + 1)`.  In Go the literal `1`
here is a `time.Duration` of one NANOSECOND, so the period is
`interval` seconds plus one nanosecond — not `interval + 1` seconds as the
adjacent comment ("just add a second to not be greedy") intends. -/
def tickPeriod (interval : Nat) : Nat := interval * second + 1

/-- Abstraction of a decoded token-endpoint response body: the fields the
polling code reads.  `errField` is `raw["error"]` (absent or a string);
`rawInterval` is `raw["interval"]` when it is present as a JSON number
(`float64`), `none` when the key is absent or not numeric. -/
structure TokenResponse where
  accessToken : String
  tokenType : String
  scope : String
  errField : Option String
  rawInterval : Option Nat
deriving DecidableEq

/-- The three shapes of `getAccessToken`'s `(auth, ok, err)` result:
`ok` is `(auth, true, nil)`, `retry` is `(auth, false, nil)`
(authorization_pending), `errStr e` is `(auth, false, fmt.Errorf("%v", e))`. -/
inductive TokenClass
  | ok
  | retry
  | errStr (e : String)
deriving DecidableEq

/-- The error strings with explicit `case` arms in `getAccessToken`
(`release.go:214-229`) other than `authorization_pending`. -/
def knownErrorStrings : List String :=
  ["slow_down", "expired_token", "unsupported_grant_type",
   "incorrect_client_credentials", "incorrect_device_code", "access_denied"]

/-- The five fatal error kinds (everything in `knownErrorStrings` except
`slow_down`, which the poll loop retries). -/
def fatalErrorStrings : List String :=
  ["expired_token", "access_denied", "incorrect_device_code",
   "incorrect_client_credentials", "unsupported_grant_type"]

/-- `getAccessToken` (`release.go:195-233`) after a 200 response and
successful JSON decoding: the `switch e := auth.raw["error"]` classification.
An absent `error` key, or an error string with no `case` arm, falls through to
`return auth, true, nil`. -/
def getAccessTokenClass (r : TokenResponse) : TokenClass :=
  match r.errField with
  | some e =>
      if e = "authorization_pending" then TokenClass.retry
      else if knownErrorStrings.contains e then TokenClass.errStr e
      else TokenClass.ok
  | none => TokenClass.ok

/-- One scripted poll attempt: the wall-clock duration of the blocking
`getAccessToken` HTTP round trip, and the response it yields. -/
structure PollAttempt where
  duration : Nat
  resp : TokenResponse
deriving DecidableEq

/-- Result of a run of `pollForAccessToken`, stamped with the return time in
nanoseconds from entry.  `exhausted` is a model artifact: the scripted
response list ran out before the loop returned. -/
inductive PollOutcome
  | authorized (resp : TokenResponse) (t : Nat)
  | failed (e : String) (t : Nat)
  | timedOut (t : Nat)
  | panicked (t : Nat)
  | exhausted (t : Nat)
deriving DecidableEq

/-- First scheduled tick of a `time.Tick(p)` ticker created at `start` that is
later than `consumed` (ticks at or before `consumed` were taken or dropped:
the tick channel buffers one element and drops the rest). -/
def smallestSched (start p consumed : Nat) : Nat :=
  if consumed ≤ start then start + p
  else start + p * ((consumed - start) / p + 1)

/-- The `for { select { ... } }` loop of `pollForAccessToken`
(`release.go:283-308`, identical at `1017-1042`).

State: `now` (time the loop re-enters the `select`), `interval` (the mutable
Go variable of the same name), and the live ticker (`tkStart` creation time,
`tkConsumed` latest time through which ticks are gone).  The `timeout`
channel fires once at `deadline`.  The `select` takes whichever channel fires
first; when both are ready at the same instant Go chooses randomly, modelled
by consuming one entry of `choices` (`true` = timeout branch; an exhausted
oracle defaults to the timeout branch).

A tick taken at time `τ` runs the next scripted attempt: the blocking
`getAccessToken` call returns at `τ + duration` and is classified as in the
source: `ok` returns the token; `authorization_pending` loops;
`slow_down` reads `auth.raw["interval"].(float64)` — a panic when absent —
then sets `interval` to that value plus 1, recreates the ticker
(`time.Tick(time.Duration(interval)*time.Second + 1)`), and sleeps
`time.Duration(interval)` (which is `interval` NANOseconds); any other error
returns it.  The deadline is inspected only at the `select`: never while an
attempt is in flight. -/
def pollLoop (deadline : Nat) (attempts : List PollAttempt) (choices : List Bool)
    (now interval tkStart tkConsumed : Nat) : PollOutcome :=
  let sched := smallestSched tkStart (tickPeriod interval) tkConsumed
  let tickAt := max sched now
  let toAt := max deadline now
  let pick : Bool × List Bool :=
    if toAt < tickAt then (true, choices)
    else if tickAt < toAt then (false, choices)
    else
      match choices with
      | b :: cs => (b, cs)
      | [] => (true, [])
  if pick.1 then PollOutcome.timedOut toAt
  else
    match attempts with
    | [] => PollOutcome.exhausted tickAt
    | a :: rest =>
      let ret := tickAt + a.duration
      match getAccessTokenClass a.resp with
      | TokenClass.ok => PollOutcome.authorized a.resp ret
      | TokenClass.retry => pollLoop deadline rest pick.2 ret interval tkStart tickAt
      | TokenClass.errStr e =>
        if e = "slow_down" then
          match a.resp.rawInterval with
          | none => PollOutcome.panicked ret
          | some v => pollLoop deadline rest pick.2 (ret + (v + 1)) (v + 1) ret ret
        else PollOutcome.failed e ret

/-- `pollForAccessToken` (`release.go:271-309`): `timeout := time.After(
time.Duration(expiresIn) * time.Second)`, ticker as in `tickPeriod`, then the
loop.  (Request construction, which cannot fail for these URLs, is elided;
the revision at 630-671 differs only in building the request once outside the
loop and omitting the extra `time.Sleep`.) -/
def pollForAccessToken (expiresIn interval : Nat) (attempts : List PollAttempt)
    (choices : List Bool) : PollOutcome :=
  pollLoop (expiresIn * second) attempts choices 0 interval 0 0

/-- A response whose `error` field is `authorization_pending`. -/
def pendingResp : TokenResponse :=
  { accessToken := "", tokenType := "", scope := "",
    errField := some "authorization_pending", rawInterval := none }

/-- An instantaneous `authorization_pending` poll attempt. -/
def pendingAttempt : PollAttempt := { duration := 0, resp := pendingResp }

/-- A successful response carrying a bearer token. -/
def okResp : TokenResponse :=
  { accessToken := "gho_tok123", tokenType := "bearer", scope := "",
    errField := none, rawInterval := none }

/-- A response with the given `error` string and optional numeric top-level
`interval`. -/
def mkErrResp (e : String) (rawInterval : Option Nat) : TokenResponse :=
  { accessToken := "", tokenType := "", scope := "",
    errField := some e, rawInterval := rawInterval }

/-! ## HTTP request builder (`newPostRequest`, `createRelease`) -/

/-- `http.Header.Set k v`: replace any existing value for key `k`, else
append.  Headers as an association list (Go canonicalizes MIME keys; all keys
here are already in canonical form, and the source's misspelled
`"Contet-Type"` canonicalizes to itself, distinct from `"Content-Type"`). -/
def hset (h : List (String × String)) (k v : String) : List (String × String) :=
  if h.any (fun p => p.1 = k) then
    h.map (fun p => if p.1 = k then (k, v) else p)
  else h ++ [(k, v)]

/-- Lookup a header value. -/
def hget (h : List (String × String)) (k : String) : Option String :=
  (h.find? (fun p => p.1 = k)).map (fun p => p.2)

/-- An outbound `http.Request` as the claims observe it: method, URL, header
map, and the form parameters serialized into the body (`params.Encode()` is
kept as the parameter list itself; percent-encoding is not modelled, no claim
depends on it). -/
structure Request where
  method : String
  url : String
  headers : List (String × String)
  formParams : List (String × String)
deriving DecidableEq

/-- `newPostRequest` (`release.go:165-191`): POST with
`Content-Type: application/x-www-form-urlencoded` and
`Accept: application/json` set first, then every caller-supplied header map
applied with `Header.Set` (so caller values overwrite the defaults).  The
variadic `headers ...map[string]string` is a list of association lists; Go
map iteration order is arbitrary, which is only observable for a map with
duplicate keys — impossible — so a fixed order is faithful. -/
def newPostRequest (url : String) (params : List (String × String))
    (headers : List (List (String × String))) : Request :=
  let h := hset (hset [] "Content-Type" "application/x-www-form-urlencoded")
      "Accept" "application/json"
  let h := headers.foldl (fun acc m => m.foldl (fun a kv => hset a kv.1 kv.2) acc) h
  { method := "POST", url := url, headers := h, formParams := params }

/-- The middle revision of `newPostRequest` (`release.go:543-554`): no
variadic header parameter, and the first header key is misspelled
`"Contet-Type"`. -/
def newPostRequestV2 (url : String) (params : List (String × String)) : Request :=
  let h := hset (hset [] "Contet-Type" "application/x-www-form-urlencoded")
      "Accept" "application/json"
  { method := "POST", url := url, headers := h, formParams := params }

/-- The last-listed revision of `newPostRequest` (`release.go:877-899`): same
shape as `newPostRequest` but with the misspelled `"Contet-Type"` key. -/
def newPostRequestV3 (url : String) (params : List (String × String))
    (headers : List (List (String × String))) : Request :=
  let h := hset (hset [] "Contet-Type" "application/x-www-form-urlencoded")
      "Accept" "application/json"
  let h := headers.foldl (fun acc m => m.foldl (fun a kv => hset a kv.1 kv.2) acc) h
  { method := "POST", url := url, headers := h, formParams := params }

/-- The request `createRelease` (`release.go:397-418`) submits:
`headers["Authorization"] = fmt.Sprintf("%s %s", auth.TokenType,
auth.AccessToken)`, then `newPostRequest(releasesURL, url.Values{}, headers)`.
(The function also builds a `params` set with the tag name and body, but
passes the empty `url.Values{}` to `newPostRequest`, so the body it sends is
empty — faithfully reproduced.) -/
def createReleaseRequest (tokenType accessToken org repo : String) : Request :=
  let releasesURL := "https://api.github.com/repos/" ++ org ++ "/" ++ repo ++ "/releases"
  let headers := [("Authorization", tokenType ++ " " ++ accessToken)]
  newPostRequest releasesURL [] [headers]

/-- The request built by the last-listed revision of `createRelease`
(`release.go:1163-1173`): `headers["Authorization"] = fmt.Sprintf("%s: %s",
auth.TokenType, auth.AccessToken)` — note the colon — then
`newPostRequest(releasesURL, url.Values{}, headers)`.  This revision prints
the request and returns an empty `release` without ever sending it. -/
def createReleaseRequestV3 (tokenType accessToken org repo : String) : Request :=
  let releasesURL := "https://api.github.com/repos/" ++ org ++ "/" ++ repo ++ "/releases"
  let headers := [("Authorization", tokenType ++ ": " ++ accessToken)]
  newPostRequestV3 releasesURL [] [headers]

/-! ## Tag resolver (`run`, `getTagFromString`, `confirm`) -/

/-- An annotated tag object: name and target commit hash. -/
structure TagObj where
  name : String
  target : String
deriving DecidableEq

/-- `getTagFromString` (`tags.go:31-57`): iterate every tag object of the
repository; on an exact `t.Name == tag` match, record it and stop the
iteration with the sentinel `"tag exists"` error, which is then swallowed.
Result: the first tag whose name equals `tag` exactly, else `nil`. -/
def getTagFromString (tag : String) (tags : List TagObj) : Option TagObj :=
  tags.find? (fun t => t.name = tag)

/-- Observable side effects of the tag-resolution fragment of `run`. -/
inductive RunEffect
  | prompt
  | checkout (h : String)
  | createTagEff
deriving DecidableEq

/-- `confirm` (later revision, `run.go` copy at `part_003:336-361`):
immediately `true` when the `force` flag is set, with no prompt; otherwise
prompt the user on stdin until a y/n answer arrives — abstracted to the final
boolean `answer` plus a `prompt` effect. -/
def confirm (force : Bool) (answer : Bool) : Bool × List RunEffect :=
  if force then (true, []) else (answer, [RunEffect.prompt])

/-- The tag-resolution fragment of `run` (`part_003:465-502`): look the tag
up; if it exists, prompt for confirmation unless `force` is set (declining
halts), then check out the existing tag's target commit and never create a
tag; if it does not exist, check out the supplied commitish and create the
tag.  Returns the effect trace and the error, if any. -/
def runTagResolution (tags : List TagObj) (tag : String) (force : Bool)
    (answer : Bool) (commitish : String) : List RunEffect × Option String :=
  match getTagFromString tag tags with
  | some t =>
    if force then ([RunEffect.checkout t.target], none)
    else
      let c := confirm force answer
      if c.1 then (c.2 ++ [RunEffect.checkout t.target], none)
      else (c.2, some "tag exists; execution halted by user")
  | none => ([RunEffect.checkout commitish, RunEffect.createTagEff], none)

/-! ## Tag creation (`createTag`, `stripComments`, the editor template) -/

/-- Split a character stream into its newline-separated lines (the newline
characters themselves are dropped; `splitLines [] = [[]]` so that joining
with newlines is the inverse). -/
def splitLines : List Char → List (List Char)
  | [] => [[]]
  | c :: rest =>
      if c = '\n' then [] :: splitLines rest
      else
        match splitLines rest with
        | [] => [[c]]
        | l :: ls => (c :: l) :: ls

/-- Join lines back with newline separators. -/
def joinLines : List (List Char) → List Char
  | [] => []
  | [l] => l
  | l :: ls => l ++ '\n' :: joinLines ls

/-- `stripComments` (`tags.go:138-143`): `regexp` `(?m)^#.*` replaced by the
empty string — every line beginning with `#` loses its content, but the
line's terminating newline survives. -/
def stripComments (s : String) : String :=
  String.mk (joinLines ((splitLines s.data).map
    (fun l => match l with | '#' :: _ => [] | _ => l)))

/-- The instructional template `captureInputFromEditor` pre-populates the
temp file with (`part_002:27-28`); it is comment-only apart from three
leading blank lines. -/
def annotatedTagPrompt : String :=
  "\n\n\n# Please enter the tag message for your annotated tag. Lines starting\n" ++
  "# with \x27#\x27 will be ignored, and an empty message aborts the tagging."

/-- Observable side effects of `createTag`. -/
inductive TagEffect
  | editorCapture
  | createTagCall (message : String)
  | pushCall
deriving DecidableEq

/-- `createTag` (`tags.go:146-186`) with `setTag` (`tags.go:59-97`) and
`pushTags` inlined as effects: when no `-m` message was configured, capture
one via the editor; strip comment lines; then `setTag` unconditionally calls
`repo.CreateTag` with the stripped message — there is no emptiness check in
this repository's code — and on storage-layer success (`storageOK`,
go-git being an external collaborator) the tag is pushed. -/
def createTagFlow (tagMessage editorInput : String) (storageOK : Bool) :
    List TagEffect × Option String :=
  let fromEditor := tagMessage = ""
  let msg0 := if fromEditor then editorInput else tagMessage
  let msg := stripComments msg0
  let eds : List TagEffect := if fromEditor then [TagEffect.editorCapture] else []
  if storageOK then
    (eds ++ [TagEffect.createTagCall msg, TagEffect.pushCall], none)
  else
    (eds ++ [TagEffect.createTagCall msg], some "failed creating tag")

/-! ## `parseGitURL` -/

/-- Word character of Go's regexp `\w`: ASCII `[0-9A-Za-z_]`. -/
def isWordChar (c : Char) : Bool := c.isAlphanum || c = '_'

/-- Drop the literal `lit` from the front of `cs`, if present. -/
def dropLit : List Char → List Char → Option (List Char)
  | [], cs => some cs
  | _, [] => none
  | p :: ps, c :: cs => if c = p then dropLit ps cs else none

/-- After the separator: does `cs` start with `\w*` immediately followed by
the literal `/` (the `organization`/`repository` divider)?  The trailing
`[\w\-]*` and `(.git)?` groups match the empty string, so nothing more is
required for the whole pattern to match. -/
def wordRunSlash : List Char → Bool
  | [] => false
  | c :: rest => c = '/' || (isWordChar c && wordRunSlash rest)

/-- After the scheme: is there a host (`.*`, any characters other than a
newline) followed by a `:` or `/` separator from which `wordRunSlash`
succeeds? -/
def hostSepOrg : List Char → Bool
  | [] => false
  | c :: rest =>
      ((c = ':' || c = '/') && wordRunSlash rest) || (c ≠ '\n' && hostSepOrg rest)

/-- Does the git-URL regular expression of `parseGitURL`
(`(?P<scheme>git@|(https?:\/\/))(?P<host>.*)(?P<pathSeparator>:|\/)`
`(?P<organization>\w*)\/(?P<repository>[\w\-]*)(?P<suffix>.git)?`,
`part_003:571`) match anywhere in the string?  The scheme alternatives are
the literals `git@`, `http://`, `https://`; tried at every start position. -/
def gitURLRegexMatches : List Char → Bool
  | [] => false
  | c :: rest =>
      (match dropLit ['g', 'i', 't', '@'] (c :: rest) with
       | some r => hostSepOrg r
       | none => false) ||
      (match dropLit ['h', 't', 't', 'p', ':', '/', '/'] (c :: rest) with
       | some r => hostSepOrg r
       | none => false) ||
      (match dropLit ['h', 't', 't', 'p', 's', ':', '/', '/'] (c :: rest) with
       | some r => hostSepOrg r
       | none => false) ||
      gitURLRegexMatches rest

/-- Result of calling a Go function that returns `(value, error)` but can
also panic. -/
inductive GoCall (α : Type) where
  | ok (val : α) (err : Option String)
  | panicked (msg : String)
deriving DecidableEq

/-- The parsed URL record.  The submatch-derived fields (`organization`,
`repository`, `parsedURL`) are elided: no claim depends on their values, only
on whether the indexing that produces them panics. -/
structure GitURLParts where
  raw : String
deriving DecidableEq

/-- `parseGitURL` (`part_003:562-587`): `re.FindStringSubmatch(repositoryURL)`
returns `nil` when the pattern does not match, and the unconditional
`matches[re.SubexpIndex(...)]` indexing then panics with an index-out-of-range
runtime error.  When the pattern matches, every submatch index is in range
(unmatched optional groups yield `""`, not a panic).  The local `err` is
declared `var err error`, never assigned, and returned as-is — so the error
result is `nil` on every non-panicking path. -/
def parseGitURL (repositoryURL : String) : GoCall GitURLParts :=
  if gitURLRegexMatches repositoryURL.toList then
    GoCall.ok { raw := repositoryURL } none
  else
    GoCall.panicked "runtime error: index out of range"

/-! ## Helper lemmas about the polling loop -/

lemma tickPeriod_pos (n : Nat) : 0 < tickPeriod n :=
  lt_of_lt_of_le one_pos (Nat.le_add_left 1 _)

lemma second_pos : 0 < second := by decide

lemma smallestSched_zero (p k : Nat) (hp : 0 < p) :
    smallestSched 0 p (k * p) = (k + 1) * p := by
  unfold smallestSched
  rcases Nat.eq_zero_or_pos k with hk | hk
  · subst hk; simp
  · have h1 : ¬ (k * p ≤ 0) := by
      have : 0 < k * p := Nat.mul_pos hk hp
      omega
    rw [if_neg h1]
    rw [Nat.sub_zero, Nat.mul_div_cancel k hp, Nat.zero_add, Nat.mul_comm]

lemma smallestSched_fresh (s p : Nat) : smallestSched s p s = s + p := by
  unfold smallestSched
  rw [if_pos (le_refl s)]

/-- One unfolding of `pollLoop` at the canonical loop state after `k` ticks
of the original ticker (now = consumed = `k` periods, ticker created at 0),
when the `(k+1)`-st tick beats the deadline. -/
lemma pollLoop_tick_step (D n k : Nat) (a : PollAttempt) (rest : List PollAttempt)
    (cs : List Bool) (hD : (k + 1) * tickPeriod n < D) :
    pollLoop D (a :: rest) cs (k * tickPeriod n) n 0 (k * tickPeriod n) =
      (match getAccessTokenClass a.resp with
       | TokenClass.ok => PollOutcome.authorized a.resp ((k + 1) * tickPeriod n + a.duration)
       | TokenClass.retry =>
           pollLoop D rest cs ((k + 1) * tickPeriod n + a.duration) n 0
             ((k + 1) * tickPeriod n)
       | TokenClass.errStr e =>
         if e = "slow_down" then
           match a.resp.rawInterval with
           | none => PollOutcome.panicked ((k + 1) * tickPeriod n + a.duration)
           | some v =>
               pollLoop D rest cs ((k + 1) * tickPeriod n + a.duration + (v + 1)) (v + 1)
                 ((k + 1) * tickPeriod n + a.duration) ((k + 1) * tickPeriod n + a.duration)
         else PollOutcome.failed e ((k + 1) * tickPeriod n + a.duration)) := by
  have hp : 0 < tickPeriod n := tickPeriod_pos n
  have hkk : k * tickPeriod n ≤ (k + 1) * tickPeriod n :=
    mul_le_mul_right' (Nat.le_succ k) _
  have h1 : max (smallestSched 0 (tickPeriod n) (k * tickPeriod n)) (k * tickPeriod n)
      = (k + 1) * tickPeriod n := by
    rw [smallestSched_zero _ _ hp]; exact Nat.max_eq_left hkk
  have h2 : max D (k * tickPeriod n) = D :=
    Nat.max_eq_left (le_of_lt (lt_of_le_of_lt hkk hD))
  have h3 : ¬ (D < (k + 1) * tickPeriod n) := not_lt_of_lt hD
  rw [pollLoop.eq_def]
  simp only [h1, h2, if_neg h3, if_pos hD]
  simp

/-- One unfolding of `pollLoop` right after a `slow_down` rebuilt the ticker
at time `s` with interval `i` (the loop re-enters the select at `s + w`, `w`
being the extra sleep, which is shorter than one period). -/
lemma pollLoop_tick_step_fresh (D i s w : Nat) (a : PollAttempt)
    (rest : List PollAttempt) (cs : List Bool)
    (hw : w ≤ tickPeriod i) (hD : s + tickPeriod i < D) :
    pollLoop D (a :: rest) cs (s + w) i s s =
      (match getAccessTokenClass a.resp with
       | TokenClass.ok => PollOutcome.authorized a.resp (s + tickPeriod i + a.duration)
       | TokenClass.retry =>
           pollLoop D rest cs (s + tickPeriod i + a.duration) i s (s + tickPeriod i)
       | TokenClass.errStr e =>
         if e = "slow_down" then
           match a.resp.rawInterval with
           | none => PollOutcome.panicked (s + tickPeriod i + a.duration)
           | some v =>
               pollLoop D rest cs (s + tickPeriod i + a.duration + (v + 1)) (v + 1)
                 (s + tickPeriod i + a.duration) (s + tickPeriod i + a.duration)
         else PollOutcome.failed e (s + tickPeriod i + a.duration)) := by
  have h1 : max (smallestSched s (tickPeriod i) s) (s + w) = s + tickPeriod i := by
    rw [smallestSched_fresh]
    exact Nat.max_eq_left (Nat.add_le_add_left hw s)
  have hnow : s + w ≤ s + tickPeriod i := Nat.add_le_add_left hw s
  have h2 : max D (s + w) = D :=
    Nat.max_eq_left (le_of_lt (lt_of_le_of_lt hnow hD))
  have h3 : ¬ (D < s + tickPeriod i) := not_lt_of_lt hD
  rw [pollLoop.eq_def]
  simp only [h1, h2, if_neg h3, if_pos hD]
  simp

/-- When the deadline falls strictly between the `k`-th and `(k+1)`-st tick,
the select takes the timeout branch regardless of the remaining script. -/
lemma pollLoop_timeout_step (D n k : Nat) (attempts : List PollAttempt)
    (cs : List Bool) (hk : k * tickPeriod n ≤ D) (hD : D < (k + 1) * tickPeriod n) :
    pollLoop D attempts cs (k * tickPeriod n) n 0 (k * tickPeriod n) =
      PollOutcome.timedOut D := by
  have hp : 0 < tickPeriod n := tickPeriod_pos n
  have h1 : max (smallestSched 0 (tickPeriod n) (k * tickPeriod n)) (k * tickPeriod n)
      = (k + 1) * tickPeriod n := by
    rw [smallestSched_zero _ _ hp]
    exact Nat.max_eq_left (mul_le_mul_right' (Nat.le_succ k) _)
  have h2 : max D (k * tickPeriod n) = D := Nat.max_eq_left hk
  rw [pollLoop.eq_def]
  simp only [h1, h2, if_pos hD]
  simp

lemma class_pending : getAccessTokenClass pendingResp = TokenClass.retry := by decide

lemma class_ok : getAccessTokenClass okResp = TokenClass.ok := by decide

lemma class_fatal (e : String) (rw : Option Nat) (he : e ∈ fatalErrorStrings) :
    getAccessTokenClass (mkErrResp e rw) = TokenClass.errStr e ∧ e ≠ "slow_down" := by
  simp only [fatalErrorStrings, List.mem_cons, List.not_mem_nil, or_false] at he
  rcases he with rfl | rfl | rfl | rfl | rfl <;> exact ⟨rfl, by decide⟩

lemma class_slow_down (rw : Option Nat) :
    getAccessTokenClass (mkErrResp "slow_down" rw) = TokenClass.errStr "slow_down" := rfl

/-- Any run of instantaneous `authorization_pending` responses whose ticks
all beat the deadline is skipped, advancing the loop state by one period per
response. -/
lemma pollLoop_skip_pending (D n : Nat) (m : Nat) :
    ∀ (k : Nat) (rest : List PollAttempt) (cs : List Bool),
      (k + m) * tickPeriod n < D →
      pollLoop D (List.replicate m pendingAttempt ++ rest) cs
          (k * tickPeriod n) n 0 (k * tickPeriod n)
        = pollLoop D rest cs ((k + m) * tickPeriod n) n 0 ((k + m) * tickPeriod n) := by
  induction m with
  | zero => intro k rest cs _; simp
  | succ m ih =>
    intro k rest cs hD
    have hstep : (k + 1) * tickPeriod n < D :=
      lt_of_le_of_lt (mul_le_mul_right' (by omega) _) hD
    rw [List.replicate_succ, List.cons_append,
      pollLoop_tick_step D n k pendingAttempt _ cs hstep]
    have hresp : pendingAttempt.resp = pendingResp := rfl
    have hdur : pendingAttempt.duration = 0 := rfl
    simp only [hresp, hdur, class_pending, Nat.add_zero]
    have := ih (k + 1) rest cs (by
      have : (k + 1) + m = k + (m + 1) := by omega
      rw [this]; exact hD)
    have harith : (k + 1) + m = k + (m + 1) := by omega
    rw [harith] at this
    exact this

/-! ## Claim theorems -/

set_option maxRecDepth 10000 in
/-- Claim C1, counterexample.  The claim says that when no access token is
obtained before the deadline `expiresIn` seconds after entry,
`pollForAccessToken` returns a timeout error regardless of in-flight poll
state, the deadline being checked independently of an outstanding poll.
False: the deadline is inspected only at the `select`, never during the
blocking `getAccessToken` call.  Run 1: `expires_in` 5 s, interval 1 s, one
poll attempt that takes 10 s and then yields the token — no token exists
before the 5 s deadline, yet the result is `authorized` at t = 11.000000001 s,
not a timeout.  Run 2: the 10 s attempt yields `authorization_pending` and the
buffered tick lets the loop (select tie resolved to the ticker) issue a
further poll attempt after the deadline, which answers `access_denied`: the
result is `failed`, and again no timeout is ever reported. -/
theorem poll_deadline_not_independent_cex :
    pollForAccessToken 5 1 [{ duration := 10 * second, resp := okResp }] []
        = PollOutcome.authorized okResp 11000000001
    ∧ 5 * second < 11000000001
    ∧ pollForAccessToken 5 1
        [{ duration := 10 * second, resp := pendingResp },
         { duration := 0, resp := mkErrResp "access_denied" none }] [false]
        = PollOutcome.failed "access_denied" 11000000001 := by decide

/-- Claim C1, amended.  The deadline is checked only between poll attempts:
whenever the loop is at its `select` and the deadline timer fires before the
next tick, `pollForAccessToken` returns the timeout error at exactly
`expiresIn` seconds and performs none of the remaining poll attempts; a poll
attempt in flight at the deadline defers (or, on success, suppresses)
timeout detection. -/
theorem poll_timeout_only_between_attempts (m n E : Nat) (more : List PollAttempt)
    (cs : List Bool) (h1 : m * tickPeriod n < E * second)
    (h2 : E * second < (m + 1) * tickPeriod n) :
    pollForAccessToken E n (List.replicate m pendingAttempt ++ more) cs
      = PollOutcome.timedOut (E * second) := by
  unfold pollForAccessToken
  have hskip := pollLoop_skip_pending (E * second) n m 0 more cs (by simpa using h1)
  simp only [Nat.zero_mul, Nat.zero_add] at hskip
  rw [hskip]
  exact pollLoop_timeout_step _ n m more cs (le_of_lt h1) h2

/-- Witness for `poll_timeout_only_between_attempts`: the spec's own scenario
— `expires_in` 5 s, interval 1 s, four `authorization_pending` polls (at
1.000000001 s cadence), then timeout at exactly 5 s with no fifth poll
attempt ever made. -/
theorem poll_timeout_only_between_attempts_witness :
    4 * tickPeriod 1 < 5 * second
    ∧ pollForAccessToken 5 1 (List.replicate 4 pendingAttempt ++ [pendingAttempt]) []
        = PollOutcome.timedOut (5 * second) :=
  ⟨by decide,
   poll_timeout_only_between_attempts 4 1 5 [pendingAttempt] [] (by decide) (by decide)⟩

set_option maxRecDepth 10000 in
/-- Claim C2.  For every poll response whose `error` is one of the five fatal
kinds (`expired_token`, `access_denied`, `incorrect_device_code`,
`incorrect_client_credentials`, `unsupported_grant_type`), arriving after any
number of `authorization_pending` responses (all before the deadline), the
client returns `failed` carrying that exact error string on the first such
response, and the remaining scripted responses (`more`) are never polled:
the result does not depend on them. -/
theorem poll_fatal_first_response (m : Nat) (e : String) (rawI : Option Nat)
    (more : List PollAttempt) (cs : List Bool) (n E : Nat)
    (he : e ∈ fatalErrorStrings)
    (hD : (m + 1) * tickPeriod n < E * second) :
    pollForAccessToken E n
        (List.replicate m pendingAttempt ++
          { duration := 0, resp := mkErrResp e rawI } :: more) cs
      = PollOutcome.failed e ((m + 1) * tickPeriod n) := by
  unfold pollForAccessToken
  have hm : m * tickPeriod n < E * second :=
    lt_of_le_of_lt (mul_le_mul_right' (by omega) _) hD
  have hskip := pollLoop_skip_pending (E * second) n m 0
    ({ duration := 0, resp := mkErrResp e rawI } :: more) cs (by simpa using hm)
  simp only [Nat.zero_mul, Nat.zero_add] at hskip
  rw [hskip, pollLoop_tick_step (E * second) n m _ more cs hD]
  obtain ⟨hc, hs⟩ := class_fatal e rawI he
  simp only [hc]
  simp only [if_neg hs]
  simp only [Nat.add_zero]

/-- Witness for `poll_fatal_first_response`: one pending response, then
`access_denied`; the flow fails with `access_denied` at the second tick and
never consumes the rest of the script. -/
theorem poll_fatal_first_response_witness :
    "access_denied" ∈ fatalErrorStrings
    ∧ pollForAccessToken 60 5
        (List.replicate 1 pendingAttempt ++
          { duration := 0, resp := mkErrResp "access_denied" none } :: [pendingAttempt]) []
        = PollOutcome.failed "access_denied" (2 * tickPeriod 5) :=
  ⟨by decide,
   poll_fatal_first_response 1 "access_denied" none [pendingAttempt] [] 5 60
     (by decide) (by decide)⟩

set_option maxRecDepth 10000 in
/-- Claim C3.  The poll cadence is NOT `interval + 1` seconds: the ticker is
built with `time.Duration(interval)*time.Second + 1`, which adds one
NANOSECOND, so with the initial interval 5 the period is 5.000000001 s and
two instantaneous polls complete at t = 10.000000002 s — not the
12 s that the claimed `(5+1)`-second cadence would give.  This contradicts the
code's own comment, "allowed to poll every `interval`, so just add a second
to not be greedy" (`release.go:274`). -/
theorem tick_cadence_one_nanosecond_bug :
    tickPeriod 5 = 5 * second + 1
    ∧ tickPeriod 5 ≠ (5 + 1) * second
    ∧ pollForAccessToken 60 5 [pendingAttempt, { duration := 0, resp := okResp }] []
        = PollOutcome.authorized okResp 10000000002
    ∧ (10000000002 : Nat) ≠ 2 * ((5 + 1) * second) := by decide

set_option maxRecDepth 10000 in
/-- Claim C4, counterexample.  The claim says the effective polling interval
strictly increases on every `slow_down` and never decreases.  False: the code
sets `interval = int(auth.raw["interval"].(float64)) + 1` unconditionally, so
a provider-supplied interval smaller than the current one SHORTENS the
cadence.  With initial interval 5 and a `slow_down` carrying `interval: 2`,
the next poll happens 3.000000001 s after the first (8000000002 ns total),
strictly sooner than the pre-`slow_down` cadence of 5.000000001 s. -/
theorem slow_down_interval_decrease_cex :
    pollForAccessToken 60 5
        [{ duration := 0, resp := mkErrResp "slow_down" (some 2) },
         { duration := 0, resp := okResp }] []
      = PollOutcome.authorized okResp 8000000002
    ∧ pollForAccessToken 60 5 [{ duration := 0, resp := okResp }] []
        = PollOutcome.authorized okResp 5000000001
    ∧ (8000000002 - 5000000001 : Nat) < 5000000001 := by decide

/-- Claim C4, amended.  On a `slow_down` response carrying a numeric
top-level `interval` `v`, the effective polling interval is set to `v + 1`
seconds — one more than the provider's value, but independent of (and
possibly smaller than) the interval in force before, so the interval is not
monotone.  Concretely: after the `slow_down` the next poll fires one new
period (`tickPeriod (v+1)`) later, whatever the original interval `n` was. -/
theorem slow_down_sets_interval_from_provider (n v E : Nat)
    (hD : tickPeriod n + tickPeriod (v + 1) < E * second) :
    pollForAccessToken E n
        [{ duration := 0, resp := mkErrResp "slow_down" (some v) },
         { duration := 0, resp := okResp }] []
      = PollOutcome.authorized okResp (tickPeriod n + tickPeriod (v + 1)) := by
  unfold pollForAccessToken
  have hp' : 0 < tickPeriod (v + 1) := tickPeriod_pos _
  have h1 : (0 + 1) * tickPeriod n < E * second := by
    rw [Nat.zero_add, Nat.one_mul]; omega
  have hz := pollLoop_tick_step (E * second) n 0
    { duration := 0, resp := mkErrResp "slow_down" (some v) }
    [{ duration := 0, resp := okResp }] [] h1
  simp only [Nat.zero_mul] at hz
  rw [hz]
  have hr : ({ duration := 0, resp := mkErrResp "slow_down" (some v) } : PollAttempt).resp
      = mkErrResp "slow_down" (some v) := rfl
  have hd : ({ duration := 0, resp := mkErrResp "slow_down" (some v) } : PollAttempt).duration
      = 0 := rfl
  have hraw : (mkErrResp "slow_down" (some v)).rawInterval = some v := rfl
  simp only [hr, hd, class_slow_down, hraw, Nat.add_zero, Nat.zero_add, Nat.one_mul]
  simp only [if_pos]
  have hw : v + 1 ≤ tickPeriod (v + 1) := by
    have := Nat.le_mul_of_pos_right (v + 1) second_pos
    unfold tickPeriod; omega
  have hfresh := pollLoop_tick_step_fresh (E * second) (v + 1) (tickPeriod n) (v + 1)
    { duration := 0, resp := okResp } [] [] hw hD
  rw [hfresh]
  have hr2 : ({ duration := 0, resp := okResp } : PollAttempt).resp = okResp := rfl
  have hd2 : ({ duration := 0, resp := okResp } : PollAttempt).duration = 0 := rfl
  simp only [hr2, hd2, class_ok, Nat.add_zero]

/-- Witness for `slow_down_sets_interval_from_provider`: interval 5,
`slow_down` with provider interval 2 — the second poll fires
`tickPeriod 3 = 3000000001` ns after the first, i.e. the cadence decreased. -/
theorem slow_down_sets_interval_from_provider_witness :
    tickPeriod 5 + tickPeriod (2 + 1) < 60 * second
    ∧ pollForAccessToken 60 5
        [{ duration := 0, resp := mkErrResp "slow_down" (some 2) },
         { duration := 0, resp := okResp }] []
        = PollOutcome.authorized okResp (tickPeriod 5 + tickPeriod (2 + 1)) :=
  ⟨by decide, slow_down_sets_interval_from_provider 5 2 60 (by decide)⟩

/-- Claim C10.  A `slow_down` response that carries no numeric top-level
`interval` field makes the polling loop panic at the unchecked type assertion
`auth.raw["interval"].(float64)` (`release.go:300`) instead of returning an
error — whatever responses were still scripted to follow. -/
theorem slow_down_missing_interval_panics (n E : Nat) (rest : List PollAttempt)
    (cs : List Bool) (hD : tickPeriod n < E * second) :
    pollForAccessToken E n
        ({ duration := 0, resp := mkErrResp "slow_down" none } :: rest) cs
      = PollOutcome.panicked (tickPeriod n) := by
  unfold pollForAccessToken
  have h1 : (0 + 1) * tickPeriod n < E * second := by
    rw [Nat.zero_add, Nat.one_mul]; exact hD
  have hz := pollLoop_tick_step (E * second) n 0
    { duration := 0, resp := mkErrResp "slow_down" none } rest cs h1
  simp only [Nat.zero_mul] at hz
  rw [hz]
  have hr : ({ duration := 0, resp := mkErrResp "slow_down" none } : PollAttempt).resp
      = mkErrResp "slow_down" none := rfl
  have hd : ({ duration := 0, resp := mkErrResp "slow_down" none } : PollAttempt).duration
      = 0 := rfl
  have hraw : (mkErrResp "slow_down" none).rawInterval = (none : Option Nat) := rfl
  simp only [hr, hd, class_slow_down, hraw, Nat.add_zero, Nat.zero_add, Nat.one_mul]
  simp

/-- Witness for `slow_down_missing_interval_panics`: interval 5, a
`slow_down` response with no `interval` key — panic at the first poll,
5.000000001 s in. -/
theorem slow_down_missing_interval_panics_witness :
    tickPeriod 5 < 60 * second
    ∧ pollForAccessToken 60 5
        [{ duration := 0, resp := mkErrResp "slow_down" none }, pendingAttempt] []
        = PollOutcome.panicked (tickPeriod 5) :=
  ⟨by decide, slow_down_missing_interval_panics 5 60 [pendingAttempt] [] (by decide)⟩

/-- Claim C5.  Whenever the repository's tags contain an exact name match for
the requested tag, the tag resolver never performs tag creation — either the
existing tag's target commit is checked out for the release, or (prompt
declined) the run halts — and when the `force` flag is set no confirmation
prompt occurs. -/
theorem existing_tag_no_create_no_prompt (tags : List TagObj) (tag : String)
    (force answer : Bool) (commitish : String) (t : TagObj)
    (h : getTagFromString tag tags = some t) :
    RunEffect.createTagEff ∉ (runTagResolution tags tag force answer commitish).1
    ∧ (RunEffect.checkout t.target ∈ (runTagResolution tags tag force answer commitish).1
        ∨ (runTagResolution tags tag force answer commitish).2
            = some "tag exists; execution halted by user")
    ∧ (force = true → RunEffect.prompt ∉ (runTagResolution tags tag force answer commitish).1) := by
  unfold runTagResolution
  rw [h]
  cases force <;> cases answer <;> simp [confirm]

/-- Witness for `existing_tag_no_create_no_prompt`: tag `v1.0` already
exists and `force` is set — the run checks out the existing tag's commit with
no prompt and no tag creation. -/
theorem existing_tag_no_create_no_prompt_witness :
    getTagFromString "v1.0" [{ name := "v1.0", target := "abc123" }]
        = some { name := "v1.0", target := "abc123" }
    ∧ (RunEffect.createTagEff
          ∉ (runTagResolution [{ name := "v1.0", target := "abc123" }] "v1.0" true false "").1
        ∧ (RunEffect.checkout "abc123"
              ∈ (runTagResolution [{ name := "v1.0", target := "abc123" }] "v1.0" true false "").1
            ∨ (runTagResolution [{ name := "v1.0", target := "abc123" }] "v1.0" true false "").2
                = some "tag exists; execution halted by user")
        ∧ (true = true → RunEffect.prompt
              ∉ (runTagResolution [{ name := "v1.0", target := "abc123" }] "v1.0" true false "").1)) :=
  ⟨by decide,
   existing_tag_no_create_no_prompt [{ name := "v1.0", target := "abc123" }] "v1.0"
     true false "" { name := "v1.0", target := "abc123" } (by decide)⟩

/-- Claim C6 (evaluated at the failing input).  The claim — and the code's
own editor template, "an empty message aborts the tagging" — says tag
creation aborts before any storage write when the stripped annotation
message is empty.  The repository code performs no such check: for the tag
message `"# placeholder"`, whose comment-stripped form is the empty string,
`createTag` still issues the storage-layer `CreateTag` call with the empty
message (the only rejection, if any, happens inside the external go-git
library), and whenever that call reports success the empty-message tag is
pushed.  Moreover an untouched template yields `"\n\n\n\n"` — blank lines,
not the empty string — so even go-git's empty-message rejection would not
fire and a whitespace-only tag goes through. -/
theorem empty_message_reaches_storage_call :
    stripComments "# placeholder" = ""
    ∧ TagEffect.createTagCall "" ∈ (createTagFlow "# placeholder" "" true).1
    ∧ TagEffect.createTagCall "" ∈ (createTagFlow "# placeholder" "" false).1
    ∧ (createTagFlow "# placeholder" "" true).1
        = [TagEffect.createTagCall "", TagEffect.pushCall]
    ∧ stripComments annotatedTagPrompt = "\n\n\n\n"
    ∧ stripComments annotatedTagPrompt ≠ "" := by decide

/-- Claim C7, counterexample.  The `createRelease` revision at
`release.go:1163-1179` formats the Authorization header as
`fmt.Sprintf("%s: %s", ...)` — token type, then a COLON and a space, then the
token — not the claimed `"<token_type> <access_token>"`. -/
theorem authorization_header_colon_cex :
    hget (createReleaseRequestV3 "bearer" "tok123" "octocat" "hello").headers
        "Authorization" = some "bearer: tok123"
    ∧ ("bearer: tok123" : String) ≠ "bearer" ++ " " ++ "tok123" := by decide

/-- Claim C7, amended.  The `createRelease` at `release.go:397-440` does send
the Authorization header as exactly token type, one space, token value — the
caller-supplied header survives `newPostRequest`'s default-header merge
unchanged; the other revision (1163-1179) inserts a colon (see the
counterexample) and never sends the request at all. -/
theorem authorization_header_format (tokenType accessToken org repo : String) :
    hget (createReleaseRequest tokenType accessToken org repo).headers "Authorization"
      = some (tokenType ++ " " ++ accessToken) := by
  simp [createReleaseRequest, newPostRequest, hset, hget]

/-- Claim C8 (evaluated at the failing input, the repo's own
`TestNewPostRequest` scenario).  The first-listed `newPostRequest`
(`release.go:165-191`) produces `Content-Type:
application/x-www-form-urlencoded`, `Accept: application/json`, merges the
caller's `Authorization` header, and lets a caller-supplied `Accept`
override the default.  The revisions at `release.go:543-554` and `877-899`,
however, set the misspelled key `"Contet-Type"`, so their requests carry NO
`Content-Type` header — contradicting the repository's own
`TestNewPostRequest`, which expects `Content-Type:
application/x-www-form-urlencoded` in the produced header map. -/
theorem contet_type_header_bug :
    hget (newPostRequest "https://api.example.org/api/testendpoint" []
        [[("Authorization", "bearer abc123")]]).headers "Content-Type"
      = some "application/x-www-form-urlencoded"
    ∧ hget (newPostRequest "https://api.example.org/api/testendpoint" []
        [[("Authorization", "bearer abc123")]]).headers "Accept"
      = some "application/json"
    ∧ hget (newPostRequest "https://api.example.org/api/testendpoint" []
        [[("Authorization", "bearer abc123")]]).headers "Authorization"
      = some "bearer abc123"
    ∧ hget (newPostRequest "https://api.example.org/api/testendpoint" []
        [[("Accept", "application/vnd.github.v3+json")]]).headers "Accept"
      = some "application/vnd.github.v3+json"
    ∧ hget (newPostRequestV3 "https://api.example.org/api/testendpoint" []
        [[("Authorization", "bearer abc123")]]).headers "Content-Type" = none
    ∧ hget (newPostRequestV3 "https://api.example.org/api/testendpoint" []
        [[("Authorization", "bearer abc123")]]).headers "Contet-Type"
      = some "application/x-www-form-urlencoded"
    ∧ hget (newPostRequestV2 "https://api.example.org/api/testendpoint" []).headers
        "Content-Type" = none := by decide

/-- Claim C9.  `parseGitURL` panics (indexing into the `nil` slice returned
by `FindStringSubmatch`) on input that does not match the git-URL regular
expression — the empty string being one such input — and its `error` result
is `nil` on every non-panicking path, so a malformed repository URL is never
reported as a recoverable error. -/
theorem parseGitURL_panics_and_nil_error (s : String) (u : GitURLParts)
    (e : Option String) :
    parseGitURL "" = GoCall.panicked "runtime error: index out of range"
    ∧ (parseGitURL s = GoCall.ok u e → e = none) := by
  constructor
  · decide
  · intro h
    unfold parseGitURL at h
    by_cases hm : gitURLRegexMatches s.toList
    · rw [if_pos hm] at h
      injection h with h1 h2
      exact h2.symm
    · rw [if_neg hm] at h
      exact GoCall.noConfusion h

/-- Witness for `parseGitURL_panics_and_nil_error`: the matching input
`git@github.com:foo/bar.git` parses with a `nil` error. -/
theorem parseGitURL_panics_and_nil_error_witness :
    parseGitURL "git@github.com:foo/bar.git"
        = GoCall.ok { raw := "git@github.com:foo/bar.git" } none
    ∧ (none : Option String) = none :=
  ⟨by decide,
   (parseGitURL_panics_and_nil_error "git@github.com:foo/bar.git"
      { raw := "git@github.com:foo/bar.git" } none).2 (by decide)⟩

end GoGitRelease
